import Mathlib

/-!
# Design-pattern examples: a verification development

Shallow embedding of the five example programs
(`examples/criacional/{builder,factory,prototype,singleton}` and
`examples/estrutural/decorator`) together with the properties stated about
them.

Conventions used throughout:

* a Go `string` is a Lean `String`; `+` on strings is `++`;
* a Go `int` is a Lean `Int` (the programs only store and print integers);
* a Go `float32` is the type `Decorator.Float32` below, an exact model of
  IEEE 754 binary32 with round-to-nearest, ties-to-even;
* objects that are assigned through pointers (builders, circles, the
  singleton) live in an explicit store and a method with a pointer receiver
  is a function of the store and the pointer; the decorator example is
  given both as a tree of values and on a store (`Decorator.Heap`);
* a run-time panic (nil dereference) is the result `none`.
-/

namespace Decorator

/-! ## `float32` arithmetic -/

/-- Value of Go type `float32`. A finite value is a sign and a magnitude; the
magnitude is counted in units of `2^-149`, the smallest positive binary32
number, so that every finite binary32 number is a whole number of units
(at most `(2^24 - 1) * 2^253` of them). All NaNs are one value. -/
inductive Float32 where
  | finite (neg : Bool) (mag : Nat)
  | inf (neg : Bool)
  | nan
  deriving DecidableEq, Repr

/-- Number of low-order bits of `q` that do not fit a 24-bit significand:
the least `s` with `q / 2^s < 2^24`, counted upwards from `s`. -/
def expShift : Nat → Nat → Nat → Nat
  | 0, _, s => s
  | fuel + 1, q, s => if q < 2 ^ 24 then s else expShift fuel (q / 2) (s + 1)

/-- Round the non-negative rational `num / den`, given in units of `2^-149`,
to binary32: to the nearest representable value, ties to the even
significand; a rounded magnitude of `2^128` or more gives an infinity. -/
def roundUnits (neg : Bool) (num den : Nat) : Float32 :=
  let q := num / den
  let s := expShift q q 0
  let d := den * 2 ^ s
  let m := num / d
  let r := num % d
  let m1 := if d < 2 * r ∨ (2 * r = d ∧ m % 2 = 1) then m + 1 else m
  if 2 ^ 128 ≤ m1 * 2 ^ s / 2 ^ 149 then Float32.inf neg
  else Float32.finite neg (m1 * 2 ^ s)

/-- Conversion of the non-negative decimal constant `num / den` to `float32`. -/
def ofConst (num den : Nat) : Float32 :=
  roundUnits false (num * 2 ^ 149) den

/-- The `float32` value of a natural number that needs no rounding. -/
def ofNat (k : Nat) : Float32 :=
  Float32.finite false (k * 2 ^ 149)

/-- Go `x + y` on `float32`. -/
def add : Float32 → Float32 → Float32
  | Float32.nan, _ => Float32.nan
  | _, Float32.nan => Float32.nan
  | Float32.inf a, Float32.inf b => if a = b then Float32.inf a else Float32.nan
  | Float32.inf a, Float32.finite _ _ => Float32.inf a
  | Float32.finite _ _, Float32.inf b => Float32.inf b
  | Float32.finite a m, Float32.finite b n =>
    if a = b then roundUnits a (m + n) 1
    else if m = n then Float32.finite false 0
    else if n < m then roundUnits a (m - n) 1
    else roundUnits b (n - m) 1

/-! ## The decorator example -/

/-- Value of interface type `IProduct`: the nil handle, a pointer to a
`tshirt`, or a pointer to a `ProductDecorator` holding another handle. No
field of either struct is assigned after construction, so a handle is
identified with the tree of objects it reaches. -/
inductive IProduct where
  | nil
  | tshirt (name : String) (price : Float32)
  | ProductDecorator (product : IProduct)
  deriving DecidableEq, Repr

/-- Source: `func NewTshirt(name string, price float32) IProduct` -/
def NewTshirt (name : String) (price : Float32) : IProduct :=
  IProduct.tshirt name price

/-- Source: `func NewProductDecorator(product IProduct) IProduct` -/
def NewProductDecorator (product : IProduct) : IProduct :=
  IProduct.ProductDecorator product

/-- Method `GetName`: `t.name` for a `tshirt`,
`"printed " + d.product.GetName()` for a `ProductDecorator`. -/
def GetName : IProduct → Option String
  | IProduct.nil => none
  | IProduct.tshirt name _ => some name
  | IProduct.ProductDecorator product =>
    match GetName product with
    | none => none
    | some inner => some ("printed " ++ inner)

/-- Method `GetPrice`: `t.price` for a `tshirt`,
`d.product.GetPrice() + 10` for a `ProductDecorator`. -/
def GetPrice : IProduct → Option Float32
  | IProduct.nil => none
  | IProduct.tshirt _ price => some price
  | IProduct.ProductDecorator product =>
    match GetPrice product with
    | none => none
    | some inner => some (add inner (ofConst 10 1))

/-- The string `s` written `n` times. -/
def repeatString (s : String) : Nat → String
  | 0 => ""
  | n + 1 => s ++ repeatString s n

end Decorator

/-! ## Objects behind pointers -/

namespace Go

/-- Store of the objects of one struct type: the object at address `a` is
the element at position `a`. -/
abbrev Store (α : Type) := List α

/-- Pointer into a store: `none` is the nil pointer, `some a` the address `a`. -/
abbrev Ptr := Option Nat

/-- Allocation `&T{...}`: the new object gets the next free address. -/
def alloc {α : Type} (s : Store α) (x : α) : Store α × Ptr :=
  (s ++ [x], some s.length)

/-- Dereference `*p`; `none` is the nil-dereference panic. -/
def read {α : Type} (s : Store α) : Ptr → Option α
  | none => none
  | some a => s[a]?

/-- Update of the object behind `p` by `f` (a field assignment through the
pointer); `none` is the nil-dereference panic. -/
def write {α : Type} (s : Store α) (p : Ptr) (f : α → α) : Option (Store α) :=
  match p with
  | none => none
  | some a =>
    match s[a]? with
    | none => none
    | some x => some (s.set a (f x))

end Go

/-! ## The builder example -/

namespace Builder

open Go

/-- Source: `type Car struct { Engine string; Wheels int; Color string }` -/
structure Car where
  Engine : String
  Wheels : Int
  Color : String
  deriving DecidableEq, Repr

/-- Source: `type CarBuilder struct { car Car }` -/
structure CarBuilder where
  car : Car
  deriving DecidableEq, Repr

/-- Source: `func NewCarBuilder() *CarBuilder`: allocates `&CarBuilder{}`, every
field at its zero value. -/
def NewCarBuilder (s : Store CarBuilder) : Store CarBuilder × Ptr :=
  alloc s { car := { Engine := "", Wheels := 0, Color := "" } }

/-- Source: `func (b *CarBuilder) SetEngine(engine string) *CarBuilder` -/
def SetEngine (s : Store CarBuilder) (b : Ptr) (engine : String) :
    Option (Store CarBuilder × Ptr) :=
  match write s b (fun o => { o with car := { o.car with Engine := engine } }) with
  | none => none
  | some s1 => some (s1, b)

/-- Source: `func (b *CarBuilder) SetWheels(wheels int) *CarBuilder` -/
def SetWheels (s : Store CarBuilder) (b : Ptr) (wheels : Int) :
    Option (Store CarBuilder × Ptr) :=
  match write s b (fun o => { o with car := { o.car with Wheels := wheels } }) with
  | none => none
  | some s1 => some (s1, b)

/-- Source: `func (b *CarBuilder) SetColor(color string) *CarBuilder` -/
def SetColor (s : Store CarBuilder) (b : Ptr) (color : String) :
    Option (Store CarBuilder × Ptr) :=
  match write s b (fun o => { o with car := { o.car with Color := color } }) with
  | none => none
  | some s1 => some (s1, b)

/-- Source: `func (b *CarBuilder) Build() Car`: returns `b.car` by value; the store
it returns is the store it was given. -/
def Build (s : Store CarBuilder) (b : Ptr) : Option (Store CarBuilder × Car) :=
  match read s b with
  | none => none
  | some o => some (s, o.car)

/-- One setter call with its argument. -/
inductive Call where
  | SetEngine (engine : String)
  | SetWheels (wheels : Int)
  | SetColor (color : String)
  deriving DecidableEq, Repr

/-- Performs one setter call on the builder behind `b`. -/
def Call.run (s : Store CarBuilder) (b : Ptr) : Call → Option (Store CarBuilder × Ptr)
  | Call.SetEngine engine => Builder.SetEngine s b engine
  | Call.SetWheels wheels => Builder.SetWheels s b wheels
  | Call.SetColor color => Builder.SetColor s b color

/-- A fluent chain `b.SetX(..).SetY(..)...`: every call is made on the
pointer returned by the call before it. -/
def chain (s : Store CarBuilder) (b : Ptr) : List Call → Option (Store CarBuilder × Ptr)
  | [] => some (s, b)
  | c :: cs =>
    match c.run s b with
    | none => none
    | some (s1, b1) => chain s1 b1 cs

/-- The `car` built in `main`: `NewCarBuilder()`, then
`SetEngine("V8").SetWheels(4).SetColor("Vermelho").Build()`. -/
def mainCar : Option Car :=
  let (s0, builder) := NewCarBuilder []
  match chain s0 builder
      [Call.SetEngine "V8", Call.SetWheels 4, Call.SetColor "Vermelho"] with
  | none => none
  | some (s1, b1) =>
    match Build s1 b1 with
    | none => none
    | some (_, car) => some car

/-- Argument of the last `SetEngine` call of a sequence, if there is one. -/
def lastEngine : List Call → Option String
  | [] => none
  | c :: cs =>
    match lastEngine cs with
    | some e => some e
    | none =>
      match c with
      | Call.SetEngine e => some e
      | _ => none

/-- Argument of the last `SetWheels` call of a sequence, if there is one. -/
def lastWheels : List Call → Option Int
  | [] => none
  | c :: cs =>
    match lastWheels cs with
    | some w => some w
    | none =>
      match c with
      | Call.SetWheels w => some w
      | _ => none

/-- Argument of the last `SetColor` call of a sequence, if there is one. -/
def lastColor : List Call → Option String
  | [] => none
  | c :: cs =>
    match lastColor cs with
    | some k => some k
    | none =>
      match c with
      | Call.SetColor k => some k
      | _ => none

/-- The value of a `Car` after the setter calls are applied to its fields in
order. -/
def Car.after (c : Car) : List Call → Car
  | [] => c
  | Call.SetEngine e :: cs => Car.after { c with Engine := e } cs
  | Call.SetWheels w :: cs => Car.after { c with Wheels := w } cs
  | Call.SetColor k :: cs => Car.after { c with Color := k } cs

end Builder

/-! ## The prototype example -/

namespace Prototype

open Go

/-- Source: `type Circle struct { Radius int; Color string }` -/
structure Circle where
  Radius : Int
  Color : String
  deriving DecidableEq, Repr

/-- Source: `func (c *Circle) Clone() Shape`: allocates
`&Circle{Radius: c.Radius, Color: c.Color}`. -/
def Clone (s : Store Circle) (c : Ptr) : Option (Store Circle × Ptr) :=
  match read s c with
  | none => none
  | some o => some (alloc s { Radius := o.Radius, Color := o.Color })

/-- Source: `func (c *Circle) GetInfo() string`: the format string of the source
with `%d` filled by `c.Radius` and `%s` by `c.Color`. -/
def GetInfo (s : Store Circle) (c : Ptr) : Option String :=
  match read s c with
  | none => none
  | some o =>
    some ("C\u00c3\u00adsculo com radio " ++ toString o.Radius ++ " e cor " ++ o.Color)

/-- Assignment `c.Radius = radius` through the pointer `c`. -/
def setRadius (s : Store Circle) (c : Ptr) (radius : Int) : Option (Store Circle) :=
  write s c (fun o => { o with Radius := radius })

/-- Assignment `c.Color = color` through the pointer `c`. -/
def setColor (s : Store Circle) (c : Ptr) (color : String) : Option (Store Circle) :=
  write s c (fun o => { o with Color := color })

/-- One field assignment through a `*Circle`. -/
inductive Assign where
  | Radius (radius : Int)
  | Color (color : String)
  deriving DecidableEq, Repr

/-- Performs the assignment on the circle behind `c`. -/
def Assign.run (s : Store Circle) (c : Ptr) : Assign → Option (Store Circle)
  | Assign.Radius radius => setRadius s c radius
  | Assign.Color color => setColor s c color

/-- Performs the assignments on the circle behind `c`, in order. -/
def assignAll (s : Store Circle) (c : Ptr) : List Assign → Option (Store Circle)
  | [] => some s
  | x :: xs =>
    match x.run s c with
    | none => none
    | some s1 => assignAll s1 c xs

/-- The two lines printed by `main`. -/
def main : Option (List String) :=
  let (s0, originalCircle) := alloc ([] : Store Circle) { Radius := 5, Color := "Vermelho" }
  match Clone s0 originalCircle with
  | none => none
  | some (s1, cloneCircle) =>
    match GetInfo s1 originalCircle, GetInfo s1 cloneCircle with
    | some a, some b => some ["Original: " ++ a, "Clone: " ++ b]
    | _, _ => none

end Prototype

/-! ## The singleton example -/

namespace SingletonPattern

open Go

/-- Source: `type singleton struct{}` -/
structure singleton where
  deriving DecidableEq, Repr

/-- Process state of the example: the allocated `singleton` objects, the
package variables `singleInstance` and `once` (the latter as its "done"
flag), and the lines written to standard output. -/
structure State where
  heap : Store singleton
  singleInstance : Ptr
  once : Bool
  stdout : List String
  deriving DecidableEq, Repr

/-- State at program start: `singleInstance` is nil, `once` has not run. -/
def State.init : State :=
  { heap := [], singleInstance := none, once := false, stdout := [] }

/-- Source: `fmt.Println(line)` -/
def Println (line : String) (σ : State) : State :=
  { σ with stdout := σ.stdout ++ [line] }

/-- Source: `once.Do(f)` in a single thread: runs `f` if `once` has not run yet and
marks it as run; does nothing otherwise. -/
def onceDo (f : State → State) (σ : State) : State :=
  if σ.once then σ else { f σ with once := true }

/-- Source: `func GetInstance() *singleton` -/
def GetInstance (σ : State) : Ptr × State :=
  let σ1 := onceDo (fun τ =>
    let τ1 := Println "Instância criada" τ
    let hp := alloc τ1.heap singleton.mk
    { τ1 with heap := hp.1, singleInstance := hp.2 }) σ
  let σ2 := Println "Instância já criada" σ1
  (σ2.singleInstance, σ2)

/-- Source: `n` calls of `GetInstance` one after the other: the pointers returned,
in call order, and the final state. -/
def calls : Nat → State → List Ptr × State
  | 0, σ => ([], σ)
  | n + 1, σ =>
    let r := GetInstance σ
    let rs := calls n r.2
    (r.1 :: rs.1, rs.2)

/-- Source: `func main()`: two calls and the printed comparison of their results. -/
def main (σ : State) : State :=
  let r1 := GetInstance σ
  let r2 := GetInstance r1.2
  Println (if r1.1 = r2.1 then "true" else "false") r2.2

end SingletonPattern

/-! ## The decorator example on a store -/

namespace Decorator

/-- Whether a handle is nil or reaches the nil handle through the `product`
fields of the decorators it points to. -/
def reachesNil : IProduct → Bool
  | IProduct.nil => true
  | IProduct.tshirt _ _ => false
  | IProduct.ProductDecorator product => reachesNil product

namespace Heap

open Go

/-- Object of the decorator example in the store: a `tshirt` struct or a
`ProductDecorator` struct, whose `product` field is a handle (a pointer into
the same store, or nil). -/
inductive Object where
  | tshirt (name : String) (price : Float32)
  | ProductDecorator (product : Ptr)
  deriving DecidableEq, Repr

/-- Source: `func NewTshirt(name string, price float32) IProduct`: allocates
`&tshirt{name: name, price: price}`. -/
def NewTshirt (s : Store Object) (name : String) (price : Float32) : Store Object × Ptr :=
  alloc s (Object.tshirt name price)

/-- Source: `func NewProductDecorator(product IProduct) IProduct`: allocates
`&ProductDecorator{product: product}`. -/
def NewProductDecorator (s : Store Object) (product : Ptr) : Store Object × Ptr :=
  alloc s (Object.ProductDecorator product)

/-- Method `GetName` on the handle `p`, with a bound on the depth of the
recursion through `d.product`; `none` is a nil dereference or a recursion
deeper than the bound. -/
def GetNameAt (s : Store Object) : Nat → Ptr → Option String
  | 0, _ => none
  | fuel + 1, p =>
    match read s p with
    | none => none
    | some (Object.tshirt name _) => some name
    | some (Object.ProductDecorator product) =>
      match GetNameAt s fuel product with
      | none => none
      | some inner => some ("printed " ++ inner)

/-- Method `GetPrice` on the handle `p`, with a bound on the depth of the
recursion through `d.product`. -/
def GetPriceAt (s : Store Object) : Nat → Ptr → Option Float32
  | 0, _ => none
  | fuel + 1, p =>
    match read s p with
    | none => none
    | some (Object.tshirt _ price) => some price
    | some (Object.ProductDecorator product) =>
      match GetPriceAt s fuel product with
      | none => none
      | some inner => some (add inner (ofConst 10 1))

/-- Method `GetName`: a chain of `product` fields that ends visits every
object at most once, so the number of objects bounds the recursion; `none`
is a nil dereference or a recursion that never ends. -/
def GetName (s : Store Object) (p : Ptr) : Option String :=
  GetNameAt s s.length p

/-- Method `GetPrice`, bounded in the same way. -/
def GetPrice (s : Store Object) (p : Ptr) : Option Float32 :=
  GetPriceAt s s.length p

/-- A query call on a handle. -/
inductive Query where
  | GetName
  | GetPrice
  deriving DecidableEq, Repr

/-- The store after the query call on the handle `p`: neither method assigns
anything, so it is the store before the call; `none` if the call fails. -/
def Query.run (s : Store Object) (p : Ptr) : Query → Option (Store Object)
  | Query.GetName =>
    match Heap.GetName s p with
    | none => none
    | some _ => some s
  | Query.GetPrice =>
    match Heap.GetPrice s p with
    | none => none
    | some _ => some s

/-- The store after the query calls on the handle `p`, made in order. -/
def runQueries (s : Store Object) (p : Ptr) : List Query → Option (Store Object)
  | [] => some s
  | q :: qs =>
    match q.run s p with
    | none => none
    | some s1 => runQueries s1 p qs

/-- The tree of objects reached from the handle `p`, read to the given
depth; `none` if the chain of `product` fields is deeper or leaves the
store. -/
def view (s : Store Object) : Nat → Ptr → Option IProduct
  | 0, _ => none
  | _ + 1, none => some IProduct.nil
  | fuel + 1, some a =>
    match s[a]? with
    | none => none
    | some (Object.tshirt name price) => some (IProduct.tshirt name price)
    | some (Object.ProductDecorator product) =>
      match view s fuel product with
      | none => none
      | some inner => some (IProduct.ProductDecorator inner)

end Heap

end Decorator

/-! ## The factory example -/

namespace Factory

open Go

/-- Source: `type person struct { name string }` -/
structure person where
  name : String
  deriving DecidableEq, Repr

/-- Value of interface type `IProduct` of the factory example: the nil
interface, or a `*person` (the method set has the one method `sayHi`). -/
inductive IProduct where
  | nil
  | person (p : Ptr)
  deriving DecidableEq, Repr

/-- Process state of the example: the allocated `person` objects and the
lines written to standard output. -/
structure State where
  heap : Store person
  stdout : List String
  deriving DecidableEq, Repr

/-- State at program start. -/
def State.init : State :=
  { heap := [], stdout := [] }

/-- Source: `fmt.Println(line)` -/
def Println (line : String) (σ : State) : State :=
  { σ with stdout := σ.stdout ++ [line] }

/-- Source: `func (p *person) sayHi()`: prints `Hi`; the receiver is not
dereferenced. Calling the method on the nil interface panics. -/
def sayHi (σ : State) : IProduct → Option State
  | IProduct.nil => none
  | IProduct.person _ => some (Println "Hi" σ)

/-- Source: `func NewPerson(name string) IProduct`: allocates
`&person{name: name}`. -/
def NewPerson (σ : State) (name : String) : IProduct × State :=
  let hp := alloc σ.heap ({ name := name } : person)
  (IProduct.person hp.2, { σ with heap := hp.1 })

/-- Source: `func main()`: `NewPerson("Pessoa 1")`, then `sayHi()` on the result. -/
def main (σ : State) : Option State :=
  let r := NewPerson σ "Pessoa 1"
  sayHi r.2 r.1

/-- For each name in turn: `NewPerson(name)`, then `sayHi()` on the result. -/
def greetEach : List String → State → Option State
  | [], σ => some σ
  | name :: names, σ =>
    let r := NewPerson σ name
    match sayHi r.2 r.1 with
    | none => none
    | some σ1 => greetEach names σ1

/-- The method `sayHi()` called `k` times on the handle `h`. -/
def sayHiTimes (h : IProduct) : Nat → State → Option State
  | 0, σ => some σ
  | k + 1, σ =>
    match sayHi σ h with
    | none => none
    | some σ1 => sayHiTimes h k σ1

end Factory

/-! # Properties -/

namespace Decorator

/-! ## Lemmas on the decorator example -/

theorem GetName_wrap (x : IProduct) :
    GetName (NewProductDecorator x) = (GetName x).map (fun inner => "printed " ++ inner) := by
  cases h : GetName x <;> simp [NewProductDecorator, GetName, h]

theorem GetPrice_wrap (x : IProduct) :
    GetPrice (NewProductDecorator x) = (GetPrice x).map (fun inner => add inner (ofConst 10 1)) := by
  cases h : GetPrice x <;> simp [NewProductDecorator, GetPrice, h]

theorem expShift_bound (fuel : Nat) :
    ∀ q s T : Nat, q / 2 ^ T < 2 ^ 24 → T ≤ fuel →
      ∃ t, t ≤ T ∧ expShift fuel q s = s + t := by
  induction fuel with
  | zero =>
    intro q s T _ hT
    exact ⟨0, Nat.zero_le _, by simp [expShift]⟩
  | succ fuel ih =>
    intro q s T hq hT
    by_cases hlt : q < 2 ^ 24
    · exact ⟨0, Nat.zero_le _, by rw [expShift, if_pos hlt, Nat.add_zero]⟩
    · cases T with
      | zero => simp at hq; exact absurd hq hlt
      | succ T =>
        have hq2 : q / 2 / 2 ^ T < 2 ^ 24 := by
          rw [Nat.div_div_eq_div_mul, ← pow_succ']
          exact hq
        obtain ⟨t, ht, he⟩ := ih (q / 2) (s + 1) T hq2 (by omega)
        refine ⟨t + 1, by omega, ?_⟩
        rw [expShift, if_neg hlt, he]
        omega

theorem roundUnits_exact (neg : Bool) (num s : Nat)
    (hs : expShift num num 0 = s) (hdvd : 2 ^ s ∣ num) (hlt : num / 2 ^ 149 < 2 ^ 128) :
    roundUnits neg num 1 = Float32.finite neg num := by
  have hr : num % 2 ^ s = 0 := Nat.mod_eq_zero_of_dvd hdvd
  have hpos : 0 < 2 ^ s := Nat.pow_pos (by norm_num)
  have hc : ¬ (2 ^ s < 2 * 0 ∨ (2 * 0 = 2 ^ s ∧ num / 2 ^ s % 2 = 1)) := by
    rintro (h | ⟨h, _⟩)
    · simp at h
    · rw [Nat.mul_zero] at h
      exact absurd h.symm (Nat.ne_of_gt hpos)
  unfold roundUnits
  simp only [Nat.div_one, hs, Nat.one_mul, hr]
  rw [if_neg hc, Nat.div_mul_cancel hdvd, if_neg (not_le.mpr hlt)]

theorem roundUnits_ofNat (j : Nat) (hj : j < 2 ^ 24) :
    roundUnits false (j * 2 ^ 149) 1 = ofNat j := by
  rcases Nat.eq_zero_or_pos j with h0 | hpos
  · subst h0
    decide
  · have hfuel : 149 ≤ j * 2 ^ 149 :=
      calc 149 ≤ 2 ^ 149 := by norm_num
        _ ≤ j * 2 ^ 149 := Nat.le_mul_of_pos_left _ hpos
    have hq : j * 2 ^ 149 / 2 ^ 149 < 2 ^ 24 := by
      rw [Nat.mul_div_cancel _ (Nat.pow_pos (by norm_num))]
      exact hj
    obtain ⟨t, ht, he⟩ := expShift_bound (j * 2 ^ 149) (j * 2 ^ 149) 0 149 hq hfuel
    rw [Nat.zero_add] at he
    have hdvd : 2 ^ t ∣ j * 2 ^ 149 :=
      Dvd.dvd.mul_left (pow_dvd_pow 2 ht) j
    have hlt : j * 2 ^ 149 / 2 ^ 149 < 2 ^ 128 :=
      lt_trans hq (by norm_num)
    exact roundUnits_exact false (j * 2 ^ 149) t he hdvd hlt

set_option maxRecDepth 4000 in
theorem ofConst_ten : ofConst 10 1 = Float32.finite false (10 * 2 ^ 149) := by
  decide

theorem add_ten_ofNat (j : Nat) (hj : j + 10 < 2 ^ 24) :
    add (ofNat j) (ofConst 10 1) = ofNat (j + 10) := by
  have h10 : ofConst 10 1 = Float32.finite false (10 * 2 ^ 149) := ofConst_ten
  rw [h10]
  show add (Float32.finite false (j * 2 ^ 149)) (Float32.finite false (10 * 2 ^ 149)) = _
  rw [add, if_pos rfl, ← Nat.add_mul]
  exact roundUnits_ofNat (j + 10) hj

theorem GetPrice_nested (nm : String) (P : Float32) (N : Nat) :
    GetPrice (NewProductDecorator^[N] (NewTshirt nm P))
      = some ((fun p => add p (ofConst 10 1))^[N] P) := by
  induction N with
  | zero => rfl
  | succ N ih =>
    rw [Function.iterate_succ_apply', GetPrice_wrap, ih, Function.iterate_succ_apply']
    rfl

theorem GetPrice_nested_ofNat (nm : String) (k N : Nat) (h : k + 10 * N < 2 ^ 24) :
    GetPrice (NewProductDecorator^[N] (NewTshirt nm (ofNat k))) = some (ofNat (k + 10 * N)) := by
  induction N with
  | zero => rfl
  | succ N ih =>
    have hN : k + 10 * N < 2 ^ 24 := by omega
    have hstep : k + 10 * N + 10 < 2 ^ 24 := by omega
    rw [Function.iterate_succ_apply', GetPrice_wrap, ih hN, Option.map_some',
      add_ten_ofNat _ hstep]
    rfl

/-! ## Claims on the decorator example -/

set_option maxRecDepth 4000 in
/-- C1, as stated, fails: with base price `float32(29.99)` one wrap does not
give `float32(39.99)` and two wraps do not give `float32(49.99)` (each sum
lands one unit in the last place below); and with base price `33554432`
(`2^25`) two wraps give `33554448`, which is neither the exact `P + 10*2`
nor the `float32` sum of `P` and `10*2`, both `33554452`. -/
theorem decorator_price_counterexample :
    GetPrice (NewProductDecorator (NewTshirt "t-shirt" (ofConst 2999 100)))
        ≠ some (ofConst 3999 100)
    ∧ GetPrice (NewProductDecorator (NewProductDecorator (NewTshirt "t-shirt" (ofConst 2999 100))))
        ≠ some (ofConst 4999 100)
    ∧ GetPrice (NewProductDecorator^[2] (NewTshirt "t-shirt" (ofConst 33554432 1)))
        = some (ofConst 33554448 1)
    ∧ GetPrice (NewProductDecorator^[2] (NewTshirt "t-shirt" (ofConst 33554432 1)))
        ≠ some (ofConst (33554432 + 10 * 2) 1)
    ∧ GetPrice (NewProductDecorator^[2] (NewTshirt "t-shirt" (ofConst 33554432 1)))
        ≠ some (add (ofConst 33554432 1) (ofConst (10 * 2) 1)) := by
  decide

set_option maxRecDepth 4000 in
/-- C1, amended: after `N` nested `NewProductDecorator` applications over
`NewTshirt(Nm, P)`, `GetPrice()` returns the result of `N` successive
`float32` additions of `10` to `P`, each rounded to nearest-even; this is
`P + 10*N` exactly when `P` is a natural number with `P + 10*N < 2^24`; for
`P = float32(29.99)` one wrap gives `10483138 * 2^-18` (printed `39.989998`)
and two wraps give `13104578 * 2^-18` (printed `49.989998`). -/
theorem decorator_price_nested :
    (∀ (nm : String) (P : Float32) (N : Nat),
      GetPrice (NewProductDecorator^[N] (NewTshirt nm P))
        = some ((fun p => add p (ofConst 10 1))^[N] P))
    ∧ (∀ (nm : String) (k N : Nat), k + 10 * N < 2 ^ 24 →
      GetPrice (NewProductDecorator^[N] (NewTshirt nm (ofNat k))) = some (ofNat (k + 10 * N)))
    ∧ GetPrice (NewProductDecorator (NewTshirt "t-shirt" (ofConst 2999 100)))
        = some (Float32.finite false (10483138 * 2 ^ 131))
    ∧ GetPrice (NewProductDecorator (NewProductDecorator (NewTshirt "t-shirt" (ofConst 2999 100))))
        = some (Float32.finite false (13104578 * 2 ^ 131)) :=
  ⟨GetPrice_nested, GetPrice_nested_ofNat, by decide, by decide⟩

/-- Witness for C1 (amended): base price `5`, three wraps, price `35`. -/
theorem decorator_price_nested_witness :
    5 + 10 * 3 < 2 ^ 24
    ∧ GetPrice (NewProductDecorator^[3] (NewTshirt "t-shirt" (ofNat 5))) = some (ofNat (5 + 10 * 3)) :=
  ⟨by decide, decorator_price_nested.2.1 "t-shirt" 5 3 (by decide)⟩

/-- C2: after `N` nested `NewProductDecorator` applications over
`NewTshirt(Nm, P)`, `GetName()` returns `N` copies of `"printed "` followed
by `Nm`; for `"t-shirt"` that is `"printed t-shirt"` after one wrap and
`"printed printed t-shirt"` after two. -/
theorem decorator_name_nested :
    (∀ (nm : String) (P : Float32) (N : Nat),
      GetName (NewProductDecorator^[N] (NewTshirt nm P))
        = some (repeatString "printed " N ++ nm))
    ∧ (∀ P : Float32, GetName (NewProductDecorator (NewTshirt "t-shirt" P))
        = some "printed t-shirt")
    ∧ (∀ P : Float32,
        GetName (NewProductDecorator (NewProductDecorator (NewTshirt "t-shirt" P)))
        = some "printed printed t-shirt") := by
  refine ⟨?_, fun _ => rfl, fun _ => rfl⟩
  intro nm P N
  induction N with
  | zero => simp [NewTshirt, GetName, repeatString]
  | succ N ih =>
    rw [Function.iterate_succ_apply', GetName_wrap, ih, Option.map_some', repeatString,
      String.append_assoc]

/-- C3: for every handle `x` whose queries return, the name of
`NewProductDecorator(x)` is `"printed "` followed by the name of `x`, and its
price is the price of `x` plus `10` (a `float32` addition). -/
theorem decorator_single_layer (x : IProduct) :
    (∀ n : String, GetName x = some n →
      GetName (NewProductDecorator x) = some ("printed " ++ n))
    ∧ (∀ p : Float32, GetPrice x = some p →
      GetPrice (NewProductDecorator x) = some (add p (ofConst 10 1))) := by
  constructor
  · intro n hn
    rw [GetName_wrap, hn, Option.map_some']
  · intro p hp
    rw [GetPrice_wrap, hp, Option.map_some']

/-- Witness for C3: a decorated t-shirt as the inner handle. -/
theorem decorator_single_layer_witness :
    GetName (NewProductDecorator (NewTshirt "t-shirt" (ofNat 5))) = some "printed t-shirt"
    ∧ GetName (NewProductDecorator (NewProductDecorator (NewTshirt "t-shirt" (ofNat 5))))
        = some ("printed " ++ "printed t-shirt") :=
  ⟨by decide, (decorator_single_layer (NewProductDecorator (NewTshirt "t-shirt" (ofNat 5)))).1
    "printed t-shirt" (by decide)⟩

end Decorator

/-! ## Lemmas on stores -/

namespace Go

theorem read_alloc_new {α : Type} (s : Store α) (x : α) :
    read (alloc s x).1 (alloc s x).2 = some x := by
  simp [read, alloc]

theorem read_alloc_old {α : Type} (s : Store α) (x : α) (p : Ptr) (o : α)
    (h : read s p = some o) : read (alloc s x).1 p = some o := by
  cases p with
  | none => simp [read] at h
  | some a =>
    simp only [read] at h
    have hlt : a < s.length := (List.getElem?_eq_some_iff.mp h).1
    simp only [read, alloc]
    rw [List.getElem?_append_left hlt]
    exact h

theorem alloc_ne_of_read {α : Type} (s : Store α) (x : α) (p : Ptr) (o : α)
    (h : read s p = some o) : (alloc s x).2 ≠ p := by
  cases p with
  | none => simp [read] at h
  | some a =>
    simp only [read] at h
    have hlt : a < s.length := (List.getElem?_eq_some_iff.mp h).1
    simp only [alloc, ne_eq, Option.some.injEq]
    omega

theorem write_of_read {α : Type} (s : Store α) (a : Nat) (o : α) (f : α → α)
    (h : s[a]? = some o) : write s (some a) f = some (s.set a (f o)) := by
  simp [write, h]

theorem read_set_same {α : Type} (s : Store α) (a : Nat) (o x : α)
    (h : s[a]? = some o) : (s.set a x)[a]? = some x := by
  have hlt : a < s.length := (List.getElem?_eq_some_iff.mp h).1
  simp [List.getElem?_set, hlt]

theorem read_set_other {α : Type} (s : Store α) (a b : Nat) (x : α) (h : a ≠ b) :
    (s.set a x)[b]? = s[b]? := by
  simp [List.getElem?_set, h]

theorem set_same {α : Type} (s : Store α) (a : Nat) (o : α) (h : s[a]? = some o) :
    s.set a o = s := by
  apply List.ext_getElem?
  intro i
  by_cases hi : a = i
  · subst hi
    rw [read_set_same s a o o h, h]
  · rw [read_set_other s a i o hi]

end Go

/-! ## Lemmas on the builder example -/

namespace Builder

open Go

theorem Call.run_valid (s : Store CarBuilder) (a : Nat) (o : CarBuilder) (c : Call)
    (h : s[a]? = some o) :
    c.run s (some a) = some (s.set a { car := o.car.after [c] }, some a) := by
  cases c <;>
    simp [Call.run, Builder.SetEngine, Builder.SetWheels, Builder.SetColor,
      write_of_read s a o _ h, Car.after]

theorem Car.after_cons (c : Car) (x : Call) (cs : List Call) :
    c.after (x :: cs) = (c.after [x]).after cs := by
  cases x <;> simp [Car.after]

theorem chain_valid (cs : List Call) :
    ∀ (s : Store CarBuilder) (a : Nat) (o : CarBuilder), s[a]? = some o →
      chain s (some a) cs = some (s.set a { car := o.car.after cs }, some a) := by
  induction cs with
  | nil =>
    intro s a o h
    simp only [chain, Car.after]
    rw [set_same s a o h]
  | cons c cs ih =>
    intro s a o h
    rw [chain, Call.run_valid s a o c h]
    simp only
    rw [ih _ a _ (read_set_same s a o _ h), List.set_set, Car.after_cons o.car c cs]

theorem Car.after_Engine (cs : List Call) :
    ∀ c : Car, (c.after cs).Engine = (lastEngine cs).getD c.Engine := by
  induction cs with
  | nil => intro c; rfl
  | cons x cs ih =>
    intro c
    cases x <;> simp only [Car.after, lastEngine, ih] <;> cases lastEngine cs <;> rfl

theorem Car.after_Wheels (cs : List Call) :
    ∀ c : Car, (c.after cs).Wheels = (lastWheels cs).getD c.Wheels := by
  induction cs with
  | nil => intro c; rfl
  | cons x cs ih =>
    intro c
    cases x <;> simp only [Car.after, lastWheels, ih] <;> cases lastWheels cs <;> rfl

theorem Car.after_Color (cs : List Call) :
    ∀ c : Car, (c.after cs).Color = (lastColor cs).getD c.Color := by
  induction cs with
  | nil => intro c; rfl
  | cons x cs ih =>
    intro c
    cases x <;> simp only [Car.after, lastColor, ih] <;> cases lastColor cs <;> rfl

theorem Build_valid (s : Store CarBuilder) (a : Nat) (o : CarBuilder) (h : s[a]? = some o) :
    Build s (some a) = some (s, o.car) := by
  simp [Build, Go.read, h]

end Builder

/-! ## Claims on the builder example -/

namespace Builder

open Go

/-- C4: a fluent chain of `SetEngine`/`SetWheels`/`SetColor` calls on a fresh
`NewCarBuilder()` runs without panic and returns the builder's own pointer;
`Build()` then returns a `Car` in which each field is the argument of the
last setter call for that field, or the zero value (`""`, `0`, `""`) if that
setter was never called; the chain of `main` builds
`{Engine:"V8", Wheels:4, Color:"Vermelho"}`. -/
theorem builder_last_write_wins :
    (∀ (s0 : Store CarBuilder) (cs : List Call),
      ∃ (s1 : Store CarBuilder) (car : Car),
        chain (NewCarBuilder s0).1 (NewCarBuilder s0).2 cs = some (s1, (NewCarBuilder s0).2)
        ∧ Build s1 (NewCarBuilder s0).2 = some (s1, car)
        ∧ car.Engine = (lastEngine cs).getD ""
        ∧ car.Wheels = (lastWheels cs).getD 0
        ∧ car.Color = (lastColor cs).getD "")
    ∧ mainCar = some { Engine := "V8", Wheels := 4, Color := "Vermelho" } := by
  refine ⟨?_, by decide⟩
  intro s0 cs
  have hnew : (NewCarBuilder s0).1[s0.length]?
      = some { car := { Engine := "", Wheels := 0, Color := "" } } := by
    simp [NewCarBuilder, alloc]
  have hptr : (NewCarBuilder s0).2 = some s0.length := rfl
  rw [hptr]
  refine ⟨_, Car.after { Engine := "", Wheels := 0, Color := "" } cs,
    chain_valid cs _ _ _ hnew, ?_, ?_, ?_, ?_⟩
  · exact Build_valid _ _ _ (read_set_same _ _ _ _ hnew)
  · exact Car.after_Engine cs _
  · exact Car.after_Wheels cs _
  · exact Car.after_Color cs _

/-- C10: if `b.Build()` returns the car `c`, then `Build` left the store as
it was, a second `Build()` returns `c` again, and `c` is a value holding the
fields the builder had at that moment; any later chain of setter calls on
`b` succeeds and changes only the builder in the store: the next `Build()`
returns `c` with those calls applied, and `c` itself is not part of the
store. -/
theorem builder_build_copy (s s1 : Store CarBuilder) (b : Ptr) (c : Car)
    (h : Build s b = some (s1, c)) :
    s1 = s
    ∧ Build s1 b = some (s1, c)
    ∧ (∃ o : CarBuilder, read s b = some o ∧ c = o.car)
    ∧ ∀ cs : List Call, ∃ s2 : Store CarBuilder,
        chain s1 b cs = some (s2, b)
        ∧ Build s2 b = some (s2, c.after cs) := by
  cases b with
  | none => simp [Build, Go.read] at h
  | some a =>
    cases ho : s[a]? with
    | none => simp [Build, Go.read, ho] at h
    | some o =>
      have hb := Build_valid s a o ho
      rw [hb] at h
      simp only [Option.some.injEq, Prod.mk.injEq] at h
      obtain ⟨hs, hc⟩ := h
      subst hs hc
      refine ⟨rfl, hb, ⟨o, ho, rfl⟩, ?_⟩
      intro cs
      exact ⟨_, chain_valid cs s a o ho,
        Build_valid _ _ _ (read_set_same s a o _ ho)⟩

/-- Witness for C10: a builder holding a V8 engine, built and then given
four wheels. -/
theorem builder_build_copy_witness :
    Build [{ car := { Engine := "V8", Wheels := 0, Color := "" } }] (some 0)
        = some ([{ car := { Engine := "V8", Wheels := 0, Color := "" } }],
                { Engine := "V8", Wheels := 0, Color := "" })
    ∧ ∃ s2 : Store CarBuilder,
        chain [{ car := { Engine := "V8", Wheels := 0, Color := "" } }] (some 0)
            [Call.SetWheels 4] = some (s2, some 0)
        ∧ Build s2 (some 0)
            = some (s2, Car.after { Engine := "V8", Wheels := 0, Color := "" }
                [Call.SetWheels 4]) :=
  ⟨by decide,
   (builder_build_copy [{ car := { Engine := "V8", Wheels := 0, Color := "" } }]
      [{ car := { Engine := "V8", Wheels := 0, Color := "" } }] (some 0)
      { Engine := "V8", Wheels := 0, Color := "" } (by decide)).2.2.2 [Call.SetWheels 4]⟩

end Builder

/-! ## Lemmas on the prototype example -/

namespace Prototype

open Go

theorem GetInfo_congr (s t : Store Circle) (p q : Ptr) (h : read s p = read t q) :
    GetInfo s p = GetInfo t q := by
  simp only [GetInfo, h]

theorem Clone_valid (s : Store Circle) (a : Nat) (o : Circle) (h : s[a]? = some o) :
    Clone s (some a) = some (s ++ [{ Radius := o.Radius, Color := o.Color }], some s.length) := by
  simp [Clone, Go.read, h, alloc]

theorem assign_valid (as : List Assign) :
    ∀ (s : Store Circle) (a : Nat) (o : Circle), s[a]? = some o →
      ∃ s2 : Store Circle, assignAll s (some a) as = some s2
        ∧ (∃ o2, s2[a]? = some o2)
        ∧ ∀ b : Nat, b ≠ a → s2[b]? = s[b]? := by
  induction as with
  | nil =>
    intro s a o h
    exact ⟨s, rfl, ⟨o, h⟩, fun _ _ => rfl⟩
  | cons x as ih =>
    intro s a o h
    have hstep : ∃ o1, x.run s (some a) = some (s.set a o1) := by
      cases x with
      | Radius r => exact ⟨_, write_of_read s a o _ h⟩
      | Color k => exact ⟨_, write_of_read s a o _ h⟩
    obtain ⟨o1, h1⟩ := hstep
    obtain ⟨s2, h2, hval, hframe⟩ := ih (s.set a o1) a o1 (read_set_same s a o o1 h)
    refine ⟨s2, ?_, hval, ?_⟩
    · simp only [assignAll, h1]
      exact h2
    · intro b hb
      rw [hframe b hb, read_set_other s a b o1 (Ne.symm hb)]

end Prototype

/-! ## Claims on the prototype example -/

namespace Prototype

open Go

/-- The two lines printed by `main` carry the same description. -/
theorem main_eq :
    main = some ["Original: C\u00c3\u00adsculo com radio 5 e cor Vermelho",
                 "Clone: C\u00c3\u00adsculo com radio 5 e cor Vermelho"] := by
  decide

/-- C5: for every circle `X` in the store, `X.Clone()` returns a pointer `Y`
to a circle with the `Radius` and `Color` of `X`, leaves `X` as it was, and
right after cloning `Y.GetInfo()` returns the same string as
`X.GetInfo()`. -/
theorem prototype_clone_equal (s : Store Circle) (x : Ptr) (o : Circle)
    (hx : read s x = some o) :
    ∃ (s1 : Store Circle) (y : Ptr) (o1 : Circle) (info : String),
      Clone s x = some (s1, y)
      ∧ read s1 y = some o1 ∧ o1.Radius = o.Radius ∧ o1.Color = o.Color
      ∧ read s1 x = some o
      ∧ GetInfo s1 y = some info ∧ GetInfo s1 x = some info ∧ GetInfo s x = some info := by
  cases x with
  | none => simp [Go.read] at hx
  | some a =>
    have ha : s[a]? = some o := hx
    have hlt : a < s.length := (List.getElem?_eq_some_iff.mp ha).1
    have hy : (s ++ [({ Radius := o.Radius, Color := o.Color } : Circle)])[s.length]?
        = some o := by simp
    have hx1 : (s ++ [({ Radius := o.Radius, Color := o.Color } : Circle)])[a]? = some o := by
      rw [List.getElem?_append_left hlt]
      exact ha
    refine ⟨_, _, o, "C\u00c3\u00adsculo com radio " ++ toString o.Radius ++ " e cor " ++ o.Color,
      Clone_valid s a o ha, hy, rfl, rfl, hx1, ?_, ?_, ?_⟩
    · simp only [GetInfo, Go.read, hy]
    · simp only [GetInfo, Go.read, hx1]
    · simp only [GetInfo, Go.read, ha]

/-- Witness for C5: the circle of `main`, `Circle{Radius: 5, Color: "Vermelho"}`. -/
theorem prototype_clone_equal_witness :
    read [({ Radius := 5, Color := "Vermelho" } : Circle)] (some 0)
        = some { Radius := 5, Color := "Vermelho" }
    ∧ ∃ (s1 : Store Circle) (y : Ptr) (o1 : Circle) (info : String),
      Clone [{ Radius := 5, Color := "Vermelho" }] (some 0) = some (s1, y)
      ∧ read s1 y = some o1 ∧ o1.Radius = 5 ∧ o1.Color = "Vermelho"
      ∧ read s1 (some 0) = some { Radius := 5, Color := "Vermelho" }
      ∧ GetInfo s1 y = some info ∧ GetInfo s1 (some 0) = some info
      ∧ GetInfo [{ Radius := 5, Color := "Vermelho" }] (some 0) = some info :=
  ⟨rfl, prototype_clone_equal [{ Radius := 5, Color := "Vermelho" }] (some 0)
    { Radius := 5, Color := "Vermelho" } rfl⟩

/-- C6: if `Y` is the clone of the circle `X`, then `Y` is another address
than `X`; any sequence of assignments to `Radius` and `Color` of `Y`
succeeds and leaves the fields and `GetInfo()` of `X` as before cloning;
and any such sequence of assignments to `X` after cloning leaves the fields
and `GetInfo()` of `Y` as they were right after cloning. -/
theorem prototype_clone_independent (s s1 : Store Circle) (x y : Ptr) (o : Circle)
    (hx : read s x = some o) (hc : Clone s x = some (s1, y)) (as : List Assign) :
    y ≠ x
    ∧ read s1 y = some o
    ∧ (∃ s2 : Store Circle, assignAll s1 y as = some s2
        ∧ read s2 x = some o ∧ GetInfo s2 x = GetInfo s x)
    ∧ (∃ s3 : Store Circle, assignAll s1 x as = some s3
        ∧ read s3 y = some o ∧ GetInfo s3 y = GetInfo s1 y) := by
  cases x with
  | none => simp [Go.read] at hx
  | some a =>
    have ha : s[a]? = some o := hx
    have hlt : a < s.length := (List.getElem?_eq_some_iff.mp ha).1
    rw [Clone_valid s a o ha] at hc
    simp only [Option.some.injEq, Prod.mk.injEq] at hc
    obtain ⟨hs1, hy⟩ := hc
    subst hs1 hy
    have hy1 : (s ++ [({ Radius := o.Radius, Color := o.Color } : Circle)])[s.length]?
        = some o := by simp
    have hx1 : (s ++ [({ Radius := o.Radius, Color := o.Color } : Circle)])[a]? = some o := by
      rw [List.getElem?_append_left hlt]
      exact ha
    have hne : a ≠ s.length := Nat.ne_of_lt hlt
    refine ⟨?_, hy1, ?_, ?_⟩
    · simp only [ne_eq, Option.some.injEq]
      exact Ne.symm hne
    · obtain ⟨s2, h2, _, hframe⟩ := assign_valid as _ _ _ hy1
      have hrx : read s2 (some a) = some o := by
        show s2[a]? = some o
        rw [hframe a hne, hx1]
      exact ⟨s2, h2, hrx, GetInfo_congr _ _ _ _ (hrx.trans hx.symm)⟩
    · obtain ⟨s3, h3, _, hframe⟩ := assign_valid as _ _ _ hx1
      have hry : read s3 (some s.length) = some o := by
        show s3[s.length]? = some o
        rw [hframe s.length (Ne.symm hne), hy1]
      exact ⟨s3, h3, hry, GetInfo_congr _ _ _ _ (hry.trans hy1.symm)⟩

/-- Witness for C6: the circle of `main`, its clone recoloured and
resized. -/
theorem prototype_clone_independent_witness :
    ∃ s2 : Store Circle,
      assignAll [{ Radius := 5, Color := "Vermelho" }, { Radius := 5, Color := "Vermelho" }]
        (some 1) [Assign.Radius 9, Assign.Color "Azul"] = some s2
      ∧ read s2 (some 0) = some { Radius := 5, Color := "Vermelho" }
      ∧ GetInfo s2 (some 0) = GetInfo [{ Radius := 5, Color := "Vermelho" }] (some 0) :=
  (prototype_clone_independent [{ Radius := 5, Color := "Vermelho" }]
    [{ Radius := 5, Color := "Vermelho" }, { Radius := 5, Color := "Vermelho" }]
    (some 0) (some 1) { Radius := 5, Color := "Vermelho" } rfl rfl
    [Assign.Radius 9, Assign.Color "Azul"]).2.2.1

end Prototype

/-! ## Lemmas on the singleton example -/

namespace SingletonPattern

open Go

/-- The first call: the instance is allocated and both lines are printed. -/
theorem GetInstance_init :
    GetInstance State.init
      = (some 0, { heap := [singleton.mk], singleInstance := some 0, once := true,
                   stdout := ["Instância criada", "Instância já criada"] }) := by
  rfl

/-- A call in an initialized state only prints the second line. -/
theorem GetInstance_done (σ : State) (h : σ.once = true) :
    GetInstance σ = (σ.singleInstance, { σ with stdout := σ.stdout ++ ["Instância já criada"] }) := by
  simp [GetInstance, onceDo, h, Println]

theorem calls_done (n : Nat) :
    ∀ σ : State, σ.once = true →
      calls n σ = (List.replicate n σ.singleInstance,
        { σ with stdout := σ.stdout ++ List.replicate n "Instância já criada" }) := by
  induction n with
  | zero => intro σ _; simp [calls]
  | succ n ih =>
    intro σ h
    rw [calls, GetInstance_done σ h]
    simp only
    rw [ih { σ with stdout := σ.stdout ++ ["Instância já criada"] } h]
    simp [List.replicate_succ]

theorem calls_init (n : Nat) :
    calls (n + 1) State.init
      = (List.replicate (n + 1) (some 0),
         { heap := [singleton.mk], singleInstance := some 0, once := true,
           stdout := "Instância criada" :: List.replicate (n + 1) "Instância já criada" }) := by
  rw [calls, GetInstance_init]
  simp only
  rw [calls_done n _ rfl]
  simp [List.replicate_succ]

end SingletonPattern

/-! ## Claims on the singleton example -/

namespace SingletonPattern

open Go

/-- The lines printed by `main` from the initial state. -/
theorem main_stdout :
    (main State.init).stdout
      = ["Instância criada", "Instância já criada", "Instância já criada", "true"] := by
  decide

/-- C7: `n >= 1` calls of `GetInstance()` one after the other, starting from
the uninitialized state, all return one and the same non-nil pointer, the
line "Instância criada" occurs exactly once in the output whatever `n` is,
and the final state is the initialized one. -/
theorem singleton_sequential (n : Nat) (hn : 1 ≤ n) :
    (∃ p : Ptr, p ≠ none ∧ (calls n State.init).1 = List.replicate n p
      ∧ (calls n State.init).2.singleInstance = p)
    ∧ (calls n State.init).2.stdout.count "Instância criada" = 1
    ∧ (calls n State.init).2.once = true := by
  obtain ⟨m, rfl⟩ : ∃ m, n = m + 1 := ⟨n - 1, by omega⟩
  rw [calls_init]
  refine ⟨⟨some 0, by simp, rfl, rfl⟩, ?_, rfl⟩
  have hne : ("Instância já criada" == "Instância criada") = false := by decide
  simp only [List.count_cons_self, List.count_replicate, hne]
  rfl

/-- Witness for C7: the two calls made by `main`. -/
theorem singleton_sequential_witness :
    (∃ p : Ptr, p ≠ none ∧ (calls 2 State.init).1 = List.replicate 2 p
      ∧ (calls 2 State.init).2.singleInstance = p)
    ∧ (calls 2 State.init).2.stdout.count "Instância criada" = 1
    ∧ (calls 2 State.init).2.once = true :=
  singleton_sequential 2 (by decide)

/-- C9: the output of `n >= 1` calls of `GetInstance()` one after the other,
starting from the uninitialized state, is the line "Instância criada"
followed by `n` lines "Instância já criada". -/
theorem singleton_trace (n : Nat) (hn : 1 ≤ n) :
    (calls n State.init).2.stdout
      = "Instância criada" :: List.replicate n "Instância já criada" := by
  obtain ⟨m, rfl⟩ : ∃ m, n = m + 1 := ⟨n - 1, by omega⟩
  rw [calls_init]

/-- Witness for C9: three calls. -/
theorem singleton_trace_witness :
    (calls 3 State.init).2.stdout
      = ["Instância criada", "Instância já criada", "Instância já criada",
         "Instância já criada"] :=
  singleton_trace 3 (by decide)

end SingletonPattern

/-! ## Setters of the builder example -/

namespace Builder

open Go

theorem read_after_set (s : Store CarBuilder) (a : Nat) (o x : CarBuilder)
    (h : s[a]? = some o) (q : Ptr) (hq : q ≠ some a) :
    read (s.set a x) (some a) = some x ∧ read (s.set a x) q = read s q := by
  refine ⟨read_set_same s a o x h, ?_⟩
  cases q with
  | none => rfl
  | some c =>
    have hne : a ≠ c := fun hac => hq (by rw [hac])
    exact read_set_other s a c x hne

theorem SetEngine_valid (s : Store CarBuilder) (a : Nat) (o : CarBuilder) (v : String)
    (h : s[a]? = some o) :
    SetEngine s (some a) v
      = some (s.set a { car := { o.car with Engine := v } }, some a) := by
  simp [SetEngine, write_of_read s a o _ h]

theorem SetWheels_valid (s : Store CarBuilder) (a : Nat) (o : CarBuilder) (v : Int)
    (h : s[a]? = some o) :
    SetWheels s (some a) v
      = some (s.set a { car := { o.car with Wheels := v } }, some a) := by
  simp [SetWheels, write_of_read s a o _ h]

theorem SetColor_valid (s : Store CarBuilder) (a : Nat) (o : CarBuilder) (v : String)
    (h : s[a]? = some o) :
    SetColor s (some a) v
      = some (s.set a { car := { o.car with Color := v } }, some a) := by
  simp [SetColor, write_of_read s a o _ h]

theorem chain_invalid (s : Store CarBuilder) (b : Ptr) (h : read s b = none)
    (c : Call) (cs : List Call) : chain s b (c :: cs) = none := by
  have hw : ∀ f : CarBuilder → CarBuilder, write s b f = none := by
    intro f
    cases b with
    | none => rfl
    | some a =>
      have ha : s[a]? = none := h
      simp [write, ha]
  cases c <;> simp [chain, Call.run, SetEngine, SetWheels, SetColor, hw]

/-- C11: on a builder `b` that exists in the store, `SetEngine(v)` returns the
pointer `b` it was called on and sets the `Engine` field of the accumulator
to `v`; `Wheels`, `Color` and every other object of the store stay as they
were. Likewise `SetWheels` changes only `Wheels` and `SetColor` only
`Color`. -/
theorem builder_setter_frame (s : Store CarBuilder) (b : Ptr) (o : CarBuilder)
    (h : read s b = some o) :
    (∀ v : String, ∃ (s1 : Store CarBuilder) (o1 : CarBuilder),
      SetEngine s b v = some (s1, b) ∧ read s1 b = some o1
      ∧ o1.car.Engine = v ∧ o1.car.Wheels = o.car.Wheels ∧ o1.car.Color = o.car.Color
      ∧ ∀ q : Ptr, q ≠ b → read s1 q = read s q)
    ∧ (∀ v : Int, ∃ (s1 : Store CarBuilder) (o1 : CarBuilder),
      SetWheels s b v = some (s1, b) ∧ read s1 b = some o1
      ∧ o1.car.Engine = o.car.Engine ∧ o1.car.Wheels = v ∧ o1.car.Color = o.car.Color
      ∧ ∀ q : Ptr, q ≠ b → read s1 q = read s q)
    ∧ (∀ v : String, ∃ (s1 : Store CarBuilder) (o1 : CarBuilder),
      SetColor s b v = some (s1, b) ∧ read s1 b = some o1
      ∧ o1.car.Engine = o.car.Engine ∧ o1.car.Wheels = o.car.Wheels ∧ o1.car.Color = v
      ∧ ∀ q : Ptr, q ≠ b → read s1 q = read s q) := by
  cases b with
  | none => simp [Go.read] at h
  | some a =>
    have ha : s[a]? = some o := h
    refine ⟨fun v => ?_, fun v => ?_, fun v => ?_⟩
    · exact ⟨_, _, SetEngine_valid s a o v ha, (read_after_set s a o _ ha none (by simp)).1,
        rfl, rfl, rfl, fun q hq => (read_after_set s a o _ ha q hq).2⟩
    · exact ⟨_, _, SetWheels_valid s a o v ha, (read_after_set s a o _ ha none (by simp)).1,
        rfl, rfl, rfl, fun q hq => (read_after_set s a o _ ha q hq).2⟩
    · exact ⟨_, _, SetColor_valid s a o v ha, (read_after_set s a o _ ha none (by simp)).1,
        rfl, rfl, rfl, fun q hq => (read_after_set s a o _ ha q hq).2⟩

/-- Witness for C11: `SetEngine("V8")` on the second of two builders. -/
theorem builder_setter_frame_witness :
    ∃ (s1 : Store CarBuilder) (o1 : CarBuilder),
      SetEngine [{ car := { Engine := "V6", Wheels := 3, Color := "Azul" } },
                 { car := { Engine := "", Wheels := 4, Color := "Vermelho" } }] (some 1) "V8"
        = some (s1, some 1)
      ∧ read s1 (some 1) = some o1
      ∧ o1.car.Engine = "V8" ∧ o1.car.Wheels = 4 ∧ o1.car.Color = "Vermelho"
      ∧ ∀ q : Ptr, q ≠ some 1 → read s1 q
          = read [{ car := { Engine := "V6", Wheels := 3, Color := "Azul" } },
                  { car := { Engine := "", Wheels := 4, Color := "Vermelho" } }] q :=
  (builder_setter_frame
    [{ car := { Engine := "V6", Wheels := 3, Color := "Azul" } },
     { car := { Engine := "", Wheels := 4, Color := "Vermelho" } }] (some 1)
    { car := { Engine := "", Wheels := 4, Color := "Vermelho" } } rfl).1 "V8"

end Builder

namespace Builder

open Go

theorem chain_eq_of_after (s : Store CarBuilder) (b : Ptr) (c1 c2 : Call) (cs1 cs2 : List Call)
    (h : ∀ car : Car, car.after (c1 :: cs1) = car.after (c2 :: cs2)) :
    chain s b (c1 :: cs1) = chain s b (c2 :: cs2) := by
  cases hr : read s b with
  | none => rw [chain_invalid s b hr, chain_invalid s b hr]
  | some o =>
    cases b with
    | none => simp [Go.read] at hr
    | some a =>
      have ha : s[a]? = some o := hr
      rw [chain_valid _ s a o ha, chain_valid _ s a o ha, h]

/-- C15: on any builder, the calls `SetEngine(e)`, `SetWheels(w)` and
`SetColor(c)` made in any of their six orders give the same store and the
same returned pointer, hence the same `Build()` result, which on a builder
that exists is `{e, w, c}`; and a setter called twice, with `v1` and then
with `v2`, gives the same store as the one call with `v2`. -/
theorem builder_setters_commute (s : Store CarBuilder) (b : Ptr)
    (e : String) (w : Int) (c : String) :
    chain s b [Call.SetEngine e, Call.SetColor c, Call.SetWheels w]
        = chain s b [Call.SetEngine e, Call.SetWheels w, Call.SetColor c]
    ∧ chain s b [Call.SetWheels w, Call.SetEngine e, Call.SetColor c]
        = chain s b [Call.SetEngine e, Call.SetWheels w, Call.SetColor c]
    ∧ chain s b [Call.SetWheels w, Call.SetColor c, Call.SetEngine e]
        = chain s b [Call.SetEngine e, Call.SetWheels w, Call.SetColor c]
    ∧ chain s b [Call.SetColor c, Call.SetEngine e, Call.SetWheels w]
        = chain s b [Call.SetEngine e, Call.SetWheels w, Call.SetColor c]
    ∧ chain s b [Call.SetColor c, Call.SetWheels w, Call.SetEngine e]
        = chain s b [Call.SetEngine e, Call.SetWheels w, Call.SetColor c]
    ∧ (∀ v1 v2 : String,
        chain s b [Call.SetEngine v1, Call.SetEngine v2] = chain s b [Call.SetEngine v2])
    ∧ (∀ v1 v2 : Int,
        chain s b [Call.SetWheels v1, Call.SetWheels v2] = chain s b [Call.SetWheels v2])
    ∧ (∀ v1 v2 : String,
        chain s b [Call.SetColor v1, Call.SetColor v2] = chain s b [Call.SetColor v2])
    ∧ (∀ o : CarBuilder, read s b = some o →
        ∃ s1 : Store CarBuilder,
          chain s b [Call.SetEngine e, Call.SetWheels w, Call.SetColor c] = some (s1, b)
          ∧ Build s1 b = some (s1, { Engine := e, Wheels := w, Color := c })) := by
  refine ⟨?_, ?_, ?_, ?_, ?_, ?_, ?_, ?_, ?_⟩
  · exact chain_eq_of_after s b _ _ _ _ (fun _ => rfl)
  · exact chain_eq_of_after s b _ _ _ _ (fun _ => rfl)
  · exact chain_eq_of_after s b _ _ _ _ (fun _ => rfl)
  · exact chain_eq_of_after s b _ _ _ _ (fun _ => rfl)
  · exact chain_eq_of_after s b _ _ _ _ (fun _ => rfl)
  · exact fun _ _ => chain_eq_of_after s b _ _ _ _ (fun _ => rfl)
  · exact fun _ _ => chain_eq_of_after s b _ _ _ _ (fun _ => rfl)
  · exact fun _ _ => chain_eq_of_after s b _ _ _ _ (fun _ => rfl)
  · intro o ho
    cases b with
    | none => simp [Go.read] at ho
    | some a =>
      have ha : s[a]? = some o := ho
      exact ⟨_, chain_valid _ s a o ha, Build_valid _ _ _ (read_set_same s a o _ ha)⟩

/-- Witness for C15: the three setters of `main` on a builder that already
holds other values. -/
theorem builder_setters_commute_witness :
    ∃ s1 : Store CarBuilder,
      chain [{ car := { Engine := "V6", Wheels := 3, Color := "Azul" } }] (some 0)
          [Call.SetEngine "V8", Call.SetWheels 4, Call.SetColor "Vermelho"] = some (s1, some 0)
      ∧ Build s1 (some 0) = some (s1, { Engine := "V8", Wheels := 4, Color := "Vermelho" }) :=
  (builder_setters_commute [{ car := { Engine := "V6", Wheels := 3, Color := "Azul" } }]
    (some 0) "V8" 4 "Vermelho").2.2.2.2.2.2.2.2
    { car := { Engine := "V6", Wheels := 3, Color := "Azul" } } rfl

end Builder

/-! ## Lemmas on the decorator example on a store -/

namespace Decorator

namespace Heap

open Go

theorem read_append {α : Type} (s t : Store α) (p : Ptr) (o : α) (h : read s p = some o) :
    read (s ++ t) p = some o := by
  cases p with
  | none => simp [Go.read] at h
  | some a =>
    have ha : s[a]? = some o := h
    have hlt : a < s.length := (List.getElem?_eq_some_iff.mp ha).1
    show (s ++ t)[a]? = some o
    rw [List.getElem?_append_left hlt]
    exact ha

theorem GetNameAt_mono (s t : Store Object) (k : Nat) (fuel : Nat) :
    ∀ (p : Ptr) (v : String), GetNameAt s fuel p = some v →
      GetNameAt (s ++ t) (fuel + k) p = some v := by
  induction fuel with
  | zero => intro p v h; simp [GetNameAt] at h
  | succ fuel ih =>
    intro p v h
    rw [Nat.succ_add]
    rw [GetNameAt] at h
    rw [GetNameAt]
    cases hr : read s p with
    | none => simp [hr] at h
    | some o =>
      rw [hr] at h
      rw [read_append s t p o hr]
      cases o with
      | tshirt name price => exact h
      | ProductDecorator product =>
        simp only at h ⊢
        cases hi : GetNameAt s fuel product with
        | none => simp [hi] at h
        | some inner =>
          rw [hi] at h
          rw [ih product inner hi]
          exact h

theorem GetPriceAt_mono (s t : Store Object) (k : Nat) (fuel : Nat) :
    ∀ (p : Ptr) (v : Float32), GetPriceAt s fuel p = some v →
      GetPriceAt (s ++ t) (fuel + k) p = some v := by
  induction fuel with
  | zero => intro p v h; simp [GetPriceAt] at h
  | succ fuel ih =>
    intro p v h
    rw [Nat.succ_add]
    rw [GetPriceAt] at h
    rw [GetPriceAt]
    cases hr : read s p with
    | none => simp [hr] at h
    | some o =>
      rw [hr] at h
      rw [read_append s t p o hr]
      cases o with
      | tshirt name price => exact h
      | ProductDecorator product =>
        simp only at h ⊢
        cases hi : GetPriceAt s fuel product with
        | none => simp [hi] at h
        | some inner =>
          rw [hi] at h
          rw [ih product inner hi]
          exact h

/-- The queries on the store agree with the queries on the tree of objects
that the handle reaches. -/
theorem view_sound (s : Store Object) (fuel : Nat) :
    ∀ (p : Ptr) (t : IProduct), view s fuel p = some t →
      GetNameAt s fuel p = Decorator.GetName t
      ∧ GetPriceAt s fuel p = Decorator.GetPrice t := by
  induction fuel with
  | zero => intro p t h; simp [view] at h
  | succ fuel ih =>
    intro p t h
    cases p with
    | none =>
      simp only [view, Option.some.injEq] at h
      subst h
      exact ⟨rfl, rfl⟩
    | some a =>
      rw [view] at h
      cases ha : s[a]? with
      | none => simp [ha] at h
      | some o =>
        rw [ha] at h
        cases o with
        | tshirt name price =>
          simp only [Option.some.injEq] at h
          subst h
          simp [GetNameAt, GetPriceAt, Go.read, ha, Decorator.GetName, Decorator.GetPrice]
        | ProductDecorator product =>
          simp only at h
          cases hv : view s fuel product with
          | none => simp [hv] at h
          | some inner =>
            rw [hv] at h
            simp only [Option.some.injEq] at h
            subst h
            obtain ⟨h1, h2⟩ := ih product inner hv
            simp [GetNameAt, GetPriceAt, Go.read, ha, h1, h2, Decorator.GetName,
              Decorator.GetPrice]

end Heap

end Decorator

/-! ## Claims on the decorator example on a store -/

namespace Decorator

namespace Heap

open Go

theorem GetName_wrapper (s : Store Object) (x : Ptr) (n : String)
    (hn : GetName s x = some n) :
    GetName (NewProductDecorator s x).1 x = some n
    ∧ GetName (NewProductDecorator s x).1 (NewProductDecorator s x).2
        = some ("printed " ++ n) := by
  have hlen : (s ++ [Object.ProductDecorator x]).length = s.length + 1 := by simp
  have hnew : read (s ++ [Object.ProductDecorator x]) (some s.length)
      = some (Object.ProductDecorator x) := by
    simp [Go.read]
  have h0 := GetNameAt_mono s [Object.ProductDecorator x] 0 s.length x n hn
  have h1 := GetNameAt_mono s [Object.ProductDecorator x] 1 s.length x n hn
  constructor
  · simp only [GetName, NewProductDecorator, alloc, hlen]
    exact h1
  · simp only [GetName, NewProductDecorator, alloc, hlen]
    rw [GetNameAt, hnew]
    simp only
    rw [Nat.add_zero] at h0
    rw [h0]

theorem GetPrice_wrapper (s : Store Object) (x : Ptr) (p : Float32)
    (hp : GetPrice s x = some p) :
    GetPrice (NewProductDecorator s x).1 x = some p
    ∧ GetPrice (NewProductDecorator s x).1 (NewProductDecorator s x).2
        = some (add p (ofConst 10 1)) := by
  have hlen : (s ++ [Object.ProductDecorator x]).length = s.length + 1 := by simp
  have hnew : read (s ++ [Object.ProductDecorator x]) (some s.length)
      = some (Object.ProductDecorator x) := by
    simp [Go.read]
  have h0 := GetPriceAt_mono s [Object.ProductDecorator x] 0 s.length x p hp
  have h1 := GetPriceAt_mono s [Object.ProductDecorator x] 1 s.length x p hp
  constructor
  · simp only [GetPrice, NewProductDecorator, alloc, hlen]
    exact h1
  · simp only [GetPrice, NewProductDecorator, alloc, hlen]
    rw [GetPriceAt, hnew]
    simp only
    rw [Nat.add_zero] at h0
    rw [h0]

theorem runQueries_same (s : Store Object) (w : Ptr) (n : String) (p : Float32)
    (hn : GetName s w = some n) (hp : GetPrice s w = some p) (qs : List Query) :
    runQueries s w qs = some s := by
  induction qs with
  | nil => rfl
  | cons q qs ih =>
    cases q with
    | GetName =>
      rw [runQueries]
      simp only [Query.run, hn]
      exact ih
    | GetPrice =>
      rw [runQueries]
      simp only [Query.run, hp]
      exact ih

/-- C12: let `x` be a handle whose `GetName()` and `GetPrice()` return `n` and
`p`. Constructing `NewProductDecorator(x)` allocates a new object and leaves
every object of the store as it was; any sequence of `GetName()` and
`GetPrice()` calls on the wrapper succeeds and leaves the store as it is
after the construction; and in that store `x.GetName()` and `x.GetPrice()`
still return `n` and `p`, while the wrapper returns `"printed " + n` and
`p + 10`. -/
theorem decorator_wrap_frame (s : Store Object) (x : Ptr) (n : String) (p : Float32)
    (hn : GetName s x = some n) (hp : GetPrice s x = some p) (qs : List Query) :
    (∀ (q : Ptr) (o : Object), read s q = some o →
        read (NewProductDecorator s x).1 q = some o)
    ∧ (∃ s2 : Store Object,
        runQueries (NewProductDecorator s x).1 (NewProductDecorator s x).2 qs = some s2
        ∧ s2 = (NewProductDecorator s x).1
        ∧ GetName s2 x = some n
        ∧ GetPrice s2 x = some p
        ∧ GetName s2 (NewProductDecorator s x).2 = some ("printed " ++ n)
        ∧ GetPrice s2 (NewProductDecorator s x).2 = some (add p (ofConst 10 1))) := by
  obtain ⟨hnx, hnw⟩ := GetName_wrapper s x n hn
  obtain ⟨hpx, hpw⟩ := GetPrice_wrapper s x p hp
  refine ⟨?_, _, runQueries_same _ _ _ _ hnw hpw qs, rfl, hnx, hpx, hnw, hpw⟩
  intro q o hq
  exact read_append s _ q o hq

set_option maxRecDepth 4000 in
/-- Witness for C12: a t-shirt of price `5` at address `0`, wrapped, and the
wrapper queried three times. -/
theorem decorator_wrap_frame_witness :
    ∃ s2 : Store Object,
      runQueries (NewProductDecorator [Object.tshirt "t-shirt" (ofNat 5)] (some 0)).1
        (NewProductDecorator [Object.tshirt "t-shirt" (ofNat 5)] (some 0)).2
        [Query.GetName, Query.GetPrice, Query.GetName] = some s2
      ∧ s2 = (NewProductDecorator [Object.tshirt "t-shirt" (ofNat 5)] (some 0)).1
      ∧ GetName s2 (some 0) = some "t-shirt"
      ∧ GetPrice s2 (some 0) = some (ofNat 5)
      ∧ GetName s2 (NewProductDecorator [Object.tshirt "t-shirt" (ofNat 5)] (some 0)).2
          = some ("printed " ++ "t-shirt")
      ∧ GetPrice s2 (NewProductDecorator [Object.tshirt "t-shirt" (ofNat 5)] (some 0)).2
          = some (add (ofNat 5) (ofConst 10 1)) :=
  (decorator_wrap_frame [Object.tshirt "t-shirt" (ofNat 5)] (some 0) "t-shirt" (ofNat 5)
    rfl rfl [Query.GetName, Query.GetPrice, Query.GetName]).2

end Heap

end Decorator

/-! ## Failure and termination of the decorator queries -/

namespace Decorator

theorem GetName_isSome (x : IProduct) : (GetName x).isSome = !reachesNil x := by
  induction x with
  | nil => rfl
  | tshirt name price => rfl
  | ProductDecorator product ih =>
    rw [reachesNil, ← ih, GetName]
    cases GetName product <;> rfl

theorem GetPrice_isSome (x : IProduct) : (GetPrice x).isSome = !reachesNil x := by
  induction x with
  | nil => rfl
  | tshirt name price => rfl
  | ProductDecorator product ih =>
    rw [reachesNil, ← ih, GetPrice]
    cases GetPrice product <;> rfl

theorem reachesNil_nested (nm : String) (P : Float32) (N : Nat) :
    reachesNil (NewProductDecorator^[N] (NewTshirt nm P)) = false := by
  induction N with
  | zero => rfl
  | succ N ih =>
    rw [Function.iterate_succ_apply', NewProductDecorator, reachesNil]
    exact ih

theorem Heap.nested_returns (s : Go.Store Heap.Object) (nm : String) (P : Float32) (N : Nat) :
    ∃ (n : String) (p : Float32),
      Heap.GetName
          ((fun sp => Heap.NewProductDecorator sp.1 sp.2)^[N] (Heap.NewTshirt s nm P)).1
          ((fun sp => Heap.NewProductDecorator sp.1 sp.2)^[N] (Heap.NewTshirt s nm P)).2
        = some n
      ∧ Heap.GetPrice
          ((fun sp => Heap.NewProductDecorator sp.1 sp.2)^[N] (Heap.NewTshirt s nm P)).1
          ((fun sp => Heap.NewProductDecorator sp.1 sp.2)^[N] (Heap.NewTshirt s nm P)).2
        = some p := by
  induction N with
  | zero =>
    refine ⟨nm, P, ?_, ?_⟩
    · simp [Heap.GetName, Heap.NewTshirt, Go.alloc, Heap.GetNameAt, Go.read]
    · simp [Heap.GetPrice, Heap.NewTshirt, Go.alloc, Heap.GetPriceAt, Go.read]
  | succ N ih =>
    obtain ⟨n, p, hn, hp⟩ := ih
    rw [Function.iterate_succ_apply']
    exact ⟨_, _, (Heap.GetName_wrapper _ _ n hn).2, (Heap.GetPrice_wrapper _ _ p hp).2⟩

/-- C14, as stated, fails: the nil handle is a value of type `IProduct`, and
the handle returned by `NewProductDecorator(nil)` panics in `GetName()` and
in `GetPrice()`, on the tree of values and on the store alike. -/
theorem decorator_queries_counterexample :
    GetName (NewProductDecorator IProduct.nil) = none
    ∧ GetPrice (NewProductDecorator IProduct.nil) = none
    ∧ Heap.GetName (Heap.NewProductDecorator [] none).1 (Heap.NewProductDecorator [] none).2
        = none
    ∧ Heap.GetPrice (Heap.NewProductDecorator [] none).1 (Heap.NewProductDecorator [] none).2
        = none := by
  decide

/-- C14, amended: for every inner handle `x` that is not nil and does not
reach the nil handle, `GetName()` and `GetPrice()` of `NewProductDecorator(x)`
return a value; for an `x` that is nil or reaches nil both queries panic;
every handle built by `NewTshirt` and any number `N` of nested
`NewProductDecorator` applications is of the first kind, so its queries end
and return at every nesting depth, on the tree of values and, within the
recursion bound given by the number of objects, on the store. -/
theorem decorator_queries_return :
    (∀ x : IProduct, reachesNil x = false →
      ∃ (n : String) (p : Float32),
        GetName (NewProductDecorator x) = some n ∧ GetPrice (NewProductDecorator x) = some p)
    ∧ (∀ x : IProduct, reachesNil x = true →
        GetName (NewProductDecorator x) = none ∧ GetPrice (NewProductDecorator x) = none)
    ∧ (∀ (nm : String) (P : Float32) (N : Nat),
        reachesNil (NewProductDecorator^[N] (NewTshirt nm P)) = false)
    ∧ (∀ (s : Go.Store Heap.Object) (nm : String) (P : Float32) (N : Nat),
        ∃ (n : String) (p : Float32),
          Heap.GetName
              ((fun sp => Heap.NewProductDecorator sp.1 sp.2)^[N] (Heap.NewTshirt s nm P)).1
              ((fun sp => Heap.NewProductDecorator sp.1 sp.2)^[N] (Heap.NewTshirt s nm P)).2
            = some n
          ∧ Heap.GetPrice
              ((fun sp => Heap.NewProductDecorator sp.1 sp.2)^[N] (Heap.NewTshirt s nm P)).1
              ((fun sp => Heap.NewProductDecorator sp.1 sp.2)^[N] (Heap.NewTshirt s nm P)).2
            = some p) := by
  refine ⟨?_, ?_, reachesNil_nested, Heap.nested_returns⟩
  · intro x hx
    have h1 := GetName_isSome (NewProductDecorator x)
    have h2 := GetPrice_isSome (NewProductDecorator x)
    have hw : reachesNil (NewProductDecorator x) = false := hx
    rw [hw] at h1 h2
    exact ⟨_, _, (Option.eq_some_of_isSome h1), (Option.eq_some_of_isSome h2)⟩
  · intro x hx
    have h1 := GetName_isSome (NewProductDecorator x)
    have h2 := GetPrice_isSome (NewProductDecorator x)
    have hw : reachesNil (NewProductDecorator x) = true := hx
    rw [hw] at h1 h2
    exact ⟨Option.not_isSome_iff_eq_none.mp (by simp [h1]),
      Option.not_isSome_iff_eq_none.mp (by simp [h2])⟩

/-- Witness for C14 (amended): a decorated t-shirt as the inner handle. -/
theorem decorator_queries_return_witness :
    reachesNil (NewProductDecorator (NewTshirt "t-shirt" (ofNat 5))) = false
    ∧ ∃ (n : String) (p : Float32),
        GetName (NewProductDecorator (NewProductDecorator (NewTshirt "t-shirt" (ofNat 5))))
          = some n
        ∧ GetPrice (NewProductDecorator (NewProductDecorator (NewTshirt "t-shirt" (ofNat 5))))
          = some p :=
  ⟨rfl, decorator_queries_return.1 (NewProductDecorator (NewTshirt "t-shirt" (ofNat 5))) rfl⟩

end Decorator

/-! ## Claims on the factory example -/

namespace Factory

open Go

theorem sayHi_NewPerson (σ : State) (name : String) :
    sayHi (NewPerson σ name).2 (NewPerson σ name).1
      = some { heap := σ.heap ++ [{ name := name }], stdout := σ.stdout ++ ["Hi"] } := by
  rfl

theorem greetEach_stdout (names : List String) :
    ∀ σ : State, ∃ σ1 : State, greetEach names σ = some σ1
      ∧ σ1.stdout = σ.stdout ++ List.replicate names.length "Hi" := by
  induction names with
  | nil => intro σ; exact ⟨σ, rfl, by simp⟩
  | cons name names ih =>
    intro σ
    obtain ⟨σ1, h1, hout⟩ :=
      ih { heap := σ.heap ++ [{ name := name }], stdout := σ.stdout ++ ["Hi"] }
    refine ⟨σ1, ?_, ?_⟩
    · rw [greetEach]
      simp only [sayHi_NewPerson]
      exact h1
    · rw [hout]
      simp [List.replicate_succ]

theorem sayHiTimes_stdout (p : Ptr) (k : Nat) :
    ∀ σ : State, sayHiTimes (IProduct.person p) k σ
      = some { σ with stdout := σ.stdout ++ List.replicate k "Hi" } := by
  induction k with
  | zero => intro σ; simp [sayHiTimes]
  | succ k ih =>
    intro σ
    rw [sayHiTimes]
    simp only [sayHi]
    rw [ih]
    simp [Println, List.replicate_succ]

/-- The line printed by `main`. -/
theorem main_stdout_eq : (main State.init).map (fun σ => σ.stdout) = some ["Hi"] := by
  decide

/-- C13: for every name `s`, `NewPerson(s)` returns a handle on which
`sayHi()` completes and appends the one line `Hi` to the output, leaving the
rest of the output and the stored objects untouched; `k` calls on that
handle append exactly `k` lines `Hi`; and constructing a person for each of
`k` names and greeting it prints exactly `k` lines `Hi`, whatever the names
are. `main` prints the single line `Hi`. -/
theorem factory_greeting :
    (∀ (σ : State) (s : String),
      ∃ σ1 : State, sayHi (NewPerson σ s).2 (NewPerson σ s).1 = some σ1
        ∧ σ1.stdout = σ.stdout ++ ["Hi"] ∧ σ1.heap = (NewPerson σ s).2.heap)
    ∧ (∀ (σ : State) (s : String) (k : Nat),
      ∃ σ1 : State, sayHiTimes (NewPerson σ s).1 k (NewPerson σ s).2 = some σ1
        ∧ σ1.stdout = σ.stdout ++ List.replicate k "Hi")
    ∧ (∀ (σ : State) (names : List String),
      ∃ σ1 : State, greetEach names σ = some σ1
        ∧ σ1.stdout = σ.stdout ++ List.replicate names.length "Hi")
    ∧ (main State.init).map (fun σ => σ.stdout) = some ["Hi"] := by
  refine ⟨?_, ?_, ?_, by decide⟩
  · intro σ s
    exact ⟨_, sayHi_NewPerson σ s, rfl, rfl⟩
  · intro σ s k
    exact ⟨_, sayHiTimes_stdout _ k _, rfl⟩
  · intro σ names
    exact greetEach_stdout names σ

end Factory

/-! ## Further claims on the singleton example -/

namespace SingletonPattern

open Go

theorem calls_init_results (n : Nat) :
    (calls n State.init).1 = List.replicate n (some 0) := by
  cases n with
  | zero => rfl
  | succ n => rw [calls_init]

/-- C16: in every sequence of `GetInstance()` calls made one after the other
from the uninitialized state (`singleInstance` nil, `once` not yet run),
every call, the first included, returns a non-nil pointer, to an object
that exists; after any number of further calls the variable
`singleInstance` holds the pointer the first call stored and returned; and
a call in a state where `once` has run changes neither `singleInstance` nor
the stored objects. -/
theorem singleton_never_nil :
    State.init.singleInstance = none ∧ State.init.once = false
    ∧ (∀ (n : Nat) (p : Ptr), p ∈ (calls n State.init).1 →
        p ≠ none ∧ read (calls n State.init).2.heap p = some singleton.mk)
    ∧ (GetInstance State.init).1 ≠ none
    ∧ (∀ n : Nat, (calls (n + 1) State.init).2.singleInstance = (GetInstance State.init).1
        ∧ (calls (n + 1) State.init).2.singleInstance
            = (GetInstance State.init).2.singleInstance)
    ∧ (∀ σ : State, σ.once = true →
        (GetInstance σ).2.singleInstance = σ.singleInstance
        ∧ (GetInstance σ).2.heap = σ.heap
        ∧ (GetInstance σ).2.once = true) := by
  refine ⟨rfl, rfl, ?_, by decide, ?_, ?_⟩
  · intro n p hp
    rw [calls_init_results] at hp
    have hp0 : p = some 0 := List.eq_of_mem_replicate hp
    subst hp0
    cases n with
    | zero => simp [calls] at hp
    | succ n =>
      rw [calls_init]
      exact ⟨by simp, rfl⟩
  · intro n
    rw [calls_init, GetInstance_init]
    exact ⟨rfl, rfl⟩
  · intro σ h
    rw [GetInstance_done σ h]
    exact ⟨rfl, rfl, h⟩

/-- Witness for C16: the second of the two calls made by `main`. -/
theorem singleton_never_nil_witness :
    some 0 ∈ (calls 2 State.init).1
    ∧ (some 0 : Ptr) ≠ none
    ∧ read (calls 2 State.init).2.heap (some 0) = some singleton.mk :=
  ⟨by decide, singleton_never_nil.2.2.1 2 (some 0) (by decide)⟩

end SingletonPattern
